import Mathlib

set_option maxHeartbeats 1000000

/-!
Shallow embedding of the `TextProcessor` utility of `scripts/ml_functions.py`:
text statistics (`analyze_text`), regular-expression search (`search_text`),
and the file helpers (`read_text_file`, `write_text_file`, `merge_text_files`,
`create_backup`), together with proofs of the specification's claims.

Python strings become `String`/`List Char`, the file system becomes an explicit
record of existing directories and a path-to-content association list, raised
exceptions become `Except PyErr`, and `datetime.now()` becomes an explicit
`Timestamp` argument.  Calls into the Python standard library (`str.split`,
`re.split`, `re.findall`, `collections.Counter.most_common`, `os.path`
functions) are embedded by executable Lean functions that follow the library's
documented behaviour on the inputs the program can produce.
-/

/-- Error kinds of the embedded operations, mirroring the Python exceptions the
methods log and re-raise: `FileNotFoundError`, write-side `OSError`,
`re.error` on an invalid pattern, and `ZeroDivisionError`. -/
inductive PyErr where
  | notFound
  | writeError
  | patternError
  | zeroDivision
deriving DecidableEq, Repr

instance {ε α : Type} [DecidableEq ε] [DecidableEq α] : DecidableEq (Except ε α) := fun a b =>
  match a, b with
  | .error e, .error e' =>
    if h : e = e' then .isTrue (by rw [h]) else .isFalse (by intro hh; cases hh; exact h rfl)
  | .ok x, .ok y =>
    if h : x = y then .isTrue (by rw [h]) else .isFalse (by intro hh; cases hh; exact h rfl)
  | .error _, .ok _ => .isFalse (fun h => Except.noConfusion h)
  | .ok _, .error _ => .isFalse (fun h => Except.noConfusion h)

/-- Whitespace recognised by Python `str.split()` with no separator
(ASCII subset: space, tab, newline, carriage return, vertical tab, form feed). -/
def isPySpace (c : Char) : Bool :=
  c == ' ' || c == '\t' || c == '\n' || c == '\r' || c == '\x0b' || c == '\x0c'

/-- Scanner for Python `str.split()`: `cur` is the word being read, in reverse.
A whitespace character closes the current word (if any); a non-whitespace
character extends it.  Empty pieces are never produced. -/
def pySplitAux (l : List Char) (cur : List Char) : List (List Char) :=
  match l with
  | [] => if cur = [] then [] else [cur.reverse]
  | c :: rest =>
    if isPySpace c then
      if cur = [] then pySplitAux rest []
      else cur.reverse :: pySplitAux rest []
    else pySplitAux rest (c :: cur)

/-- Python `text.split()` (no separator): split on runs of whitespace and drop
empty pieces (`ml_functions.py` line 81). -/
def pySplit (l : List Char) : List (List Char) :=
  pySplitAux l []

/-- The list of whitespace-separated words of a text, as strings. -/
def pyWords (text : String) : List String :=
  (pySplit text.data).map (fun w => String.mk w)

/-- The sentence delimiters of the split pattern at `ml_functions.py` line 82:
`.`, `!` and `?`. -/
def isSentDelim (c : Char) : Bool :=
  c == '.' || c == '!' || c == '?'

/-- Scanner for `re.split` with the delimiter-run pattern: `cur` is the
fragment being read, in reverse; `inRun` records that the previous character
was a delimiter, so that a further delimiter extends the same split point
instead of opening a new one. -/
def splitSentAux (l : List Char) (cur : List Char) (inRun : Bool) : List (List Char) :=
  match l with
  | [] => [cur.reverse]
  | c :: rest =>
    if isSentDelim c then
      if inRun then splitSentAux rest [] true
      else cur.reverse :: splitSentAux rest [] true
    else splitSentAux rest (c :: cur) false

/-- Python `re.split` applied with the fixed pattern of one-or-more sentence
delimiters (`ml_functions.py` line 82): each maximal run of delimiters is one
split point, and the pieces between split points (including empty leading and
trailing pieces) are returned. -/
def splitSent (l : List Char) : List (List Char) :=
  splitSentAux l [] false

/-- Counts the delimiter positions that open a maximal run, `inRun` again
recording whether the previous character was a delimiter. -/
def delimRunCountAux (l : List Char) (inRun : Bool) : Nat :=
  match l with
  | [] => 0
  | c :: rest =>
    if isSentDelim c then (if inRun then 0 else 1) + delimRunCountAux rest true
    else delimRunCountAux rest false

/-- The number of maximal runs of sentence delimiters in a character list:
a run starts at a delimiter that is either at the front or preceded by a
non-delimiter.  Used to state that consecutive delimiters act as a single
split point. -/
def delimRunCount (l : List Char) : Nat :=
  delimRunCountAux l false

/-- Scanner computing distinct elements in order of first appearance, keeping
the set of already `seen` words. -/
def dedupFirstAux (ws : List String) (seen : List String) : List String :=
  match ws with
  | [] => []
  | w :: rest =>
    if seen.contains w then dedupFirstAux rest seen
    else w :: dedupFirstAux rest (seen ++ [w])

/-- The distinct elements of a word list in order of first appearance:
the key order of `collections.Counter(words)` (insertion order). -/
def dedupFirst (ws : List String) : List String :=
  dedupFirstAux ws []

/-- The `(word, count)` items of `collections.Counter(words)`, in first
appearance order of the words. -/
def counterItems (ws : List String) : List (String × Nat) :=
  (dedupFirst ws).map (fun w => (w, ws.count w))

/-- Insert an item into a list already sorted by descending count, placing it
after every item of greater or equal count (the position a stable
descending sort gives it). -/
def insertByCount (x : String × Nat) (l : List (String × Nat)) : List (String × Nat) :=
  match l with
  | [] => [x]
  | y :: ys => if y.2 < x.2 then x :: y :: ys else y :: insertByCount x ys

/-- Stable sort by descending count, processing items left to right and
inserting each after the items of greater or equal count: the order produced by
`Counter.most_common`, which is documented as a stable descending sort on
counts. -/
def stableSortDesc (l : List (String × Nat)) : List (String × Nat) :=
  l.foldl (fun acc x => insertByCount x acc) []

/-- `collections.Counter(words).most_common (n)`: the counter items sorted by
descending count (stably, so ties keep first-appearance order), truncated to
`n` entries. -/
def most_common (ws : List String) (n : Nat) : List (String × Nat) :=
  (stableSortDesc (counterItems ws)).take n

/-- Python `a / b` on numbers: raises `ZeroDivisionError` when `b = 0`.
Exact rational division stands in for Python float division. -/
def pyDiv (a b : ℚ) : Except PyErr ℚ :=
  if b = 0 then .error .zeroDivision else .ok (a / b)

/-- The `sum(len(word) for word in words) / len(words) if words else 0`
expression of `ml_functions.py` line 88: the division is only evaluated when
the word list is non-empty. -/
def averageWordLength (words : List String) : Except PyErr ℚ :=
  if words.isEmpty then .ok 0
  else pyDiv ((words.map String.length).sum : ℕ) (words.length : ℕ)

/-- The analysis dictionary built by `TextProcessor.analyze_text`
(`ml_functions.py` lines 84-90). -/
structure AnalysisResult where
  word_count : Nat
  character_count : Nat
  sentence_count : Nat
  average_word_length : ℚ
  most_common_words : List (String × Nat)
deriving DecidableEq, Repr

/-- `TextProcessor.analyze_text` (`ml_functions.py` lines 70-96): word count by
whitespace split, character count, sentence count by splitting on delimiter
runs, guarded average word length, and the five most common words.  The
`try`/`except` of the source re-raises any exception, so the embedding
propagates the only possible error source, the division. -/
def analyze_text (text : String) : Except PyErr AnalysisResult :=
  let words := pyWords text
  match averageWordLength words with
  | .error e => .error e
  | .ok avg =>
    .ok { word_count := words.length
          character_count := text.length
          sentence_count := (splitSent text.data).length
          average_word_length := avg
          most_common_words := most_common words 5 }

/-- Abstract syntax of the supported regular-expression dialect: literal
characters, character classes (possibly negated; the dot is the class of all
characters but newline), capturing groups, concatenation, alternation, and the
star, plus and question quantifiers (the question mark becomes alternation
with the empty pattern). -/
inductive Regex where
  | epsilon
  | char (c : Char)
  | cls (cs : List Char) (neg : Bool)
  | concat (r1 r2 : Regex)
  | alt (r1 r2 : Regex)
  | star (r : Regex)
  | plus (r : Regex)
  | group (r : Regex)
deriving DecidableEq, Repr

/-- Number of capturing groups, in Python's numbering order (a group is
numbered before the groups nested inside it). -/
def numGroups : Regex → Nat
  | .epsilon | .char _ | .cls _ _ => 0
  | .concat r1 r2 | .alt r1 r2 => numGroups r1 + numGroups r2
  | .star r | .plus r => numGroups r
  | .group r => numGroups r + 1

/-- Captures of the groups of a pattern, in group order; `none` marks a group
that did not take part in the match. -/
abbrev Caps := List (Option (List Char))

/-- All-unset captures for `n` groups. -/
def unsetCaps (n : Nat) : Caps :=
  List.replicate n none

/-- Merges the captures of a later quantifier iteration over the captures of
earlier iterations: a group keeps the value of its last participating
iteration. -/
def mergeCaps (old new : Caps) : Caps :=
  List.zipWith (fun o n => match n with | some v => some v | none => o) old new

/-- Structural size of a pattern, used to pick enough matcher fuel. -/
def regexSize : Regex → Nat
  | .epsilon | .char _ | .cls _ _ => 1
  | .concat r1 r2 | .alt r1 r2 => regexSize r1 + regexSize r2 + 1
  | .star r | .plus r | .group r => regexSize r + 1

/-- Backtracking matcher.  `runRe fuel r s` lists, in the engine's preference
order (greedy quantifiers, left alternative first), the ways `r` can match a
prefix of `s`: the consumed characters, the remaining characters, and the
captures of the groups of `r`.  A star iteration that consumes nothing is cut
off, as in Python's engine.  The fuel bounds the recursion depth; callers pass
`reFuel`, which exceeds the depth any match can need. -/
def runRe : Nat → Regex → List Char → List (List Char × List Char × Caps)
  | 0, _, _ => []
  | _ + 1, .epsilon, s => [([], s, [])]
  | _ + 1, .char c, s =>
    match s with
    | [] => []
    | x :: rest => if x = c then [([x], rest, [])] else []
  | _ + 1, .cls cs neg, s =>
    match s with
    | [] => []
    | x :: rest => if cs.contains x ≠ neg then [([x], rest, [])] else []
  | n + 1, .concat r1 r2, s =>
    (runRe n r1 s).flatMap (fun m1 =>
      (runRe n r2 m1.2.1).map (fun m2 => (m1.1 ++ m2.1, m2.2.1, m1.2.2 ++ m2.2.2)))
  | n + 1, .alt r1 r2, s =>
    (runRe n r1 s).map (fun m => (m.1, m.2.1, m.2.2 ++ unsetCaps (numGroups r2))) ++
      (runRe n r2 s).map (fun m => (m.1, m.2.1, unsetCaps (numGroups r1) ++ m.2.2))
  | n + 1, .star r, s =>
    ((runRe n r s).filter (fun m => m.1 ≠ [])).flatMap (fun m1 =>
      (runRe n (.star r) m1.2.1).map (fun m2 =>
        (m1.1 ++ m2.1, m2.2.1, mergeCaps m1.2.2 m2.2.2))) ++
      [([], s, unsetCaps (numGroups r))]
  | n + 1, .plus r, s =>
    (runRe n r s).flatMap (fun m1 =>
      (runRe n (.star r) m1.2.1).map (fun m2 =>
        (m1.1 ++ m2.1, m2.2.1, mergeCaps m1.2.2 m2.2.2)))
  | n + 1, .group r, s =>
    (runRe n r s).map (fun m => (m.1, m.2.1, some m.1 :: m.2.2))

/-- Fuel sufficient for `runRe` on the given pattern and input. -/
def reFuel (r : Regex) (s : List Char) : Nat :=
  (regexSize r + 2) * (s.length + 2)

/-- The match attempt at the current position: the engine's preferred way for
`r` to match a prefix of `s`, if any. -/
def matchAt (r : Regex) (s : List Char) : Option (List Char × List Char × Caps) :=
  (runRe (reFuel r s) r s).head?

/-- The scan loop of `re.findall`: try a match at the current position; on
success emit it and continue after it (one position further if it was empty),
on failure move one position forward.  The fuel is at least the number of
positions and never runs out for the callers. -/
def scanRe : Nat → Regex → List Char → List (List Char × Caps)
  | 0, _, _ => []
  | n + 1, r, s =>
    match matchAt r s with
    | none =>
      match s with
      | [] => []
      | _ :: rest => scanRe n r rest
    | some m =>
      if m.1 = [] then
        (m.1, m.2.2) ::
          (match s with
           | [] => []
           | _ :: rest => scanRe n r rest)
      else (m.1, m.2.2) :: scanRe n r m.2.1

/-- The non-overlapping matches of `r` over `s`, in order of their start
position: the consumed characters and group captures of each. -/
def findMatches (r : Regex) (s : String) : List (List Char × Caps) :=
  scanRe (s.length + 2) r s.data

/-- The matched substrings of the non-overlapping matches of `r` over `s`, in
order of their start position. -/
def fullMatches (r : Regex) (s : String) : List String :=
  (findMatches r s).map (fun m => String.mk m.1)

/-- An element of the list `re.findall` returns: a string when the pattern has
at most one group, a tuple of the group captures otherwise. -/
inductive PyItem where
  | str (s : String)
  | tup (l : List String)
deriving DecidableEq, Repr

/-- A group capture as `re.findall` reports it: the captured text, or the
empty string for a group that did not participate. -/
def capStr (o : Option (List Char)) : String :=
  match o with
  | some u => String.mk u
  | none => ""

/-- Python `re.findall(pattern, text)` on a compiled pattern, with its
documented dependence on the group count: with no groups the full matched
substrings, with exactly one group that group's captures, with several groups
tuples of captures. -/
def re_findall (r : Regex) (s : String) : List PyItem :=
  let ms := findMatches r s
  if numGroups r = 0 then ms.map (fun m => .str (String.mk m.1))
  else if numGroups r = 1 then ms.map (fun m => .str (capStr (m.2.headD none)))
  else ms.map (fun m => .tup (m.2.map capStr))

/-- Parses the items of a character class after the opening bracket, optional
caret and optional leading literal bracket, up to the closing bracket; a
backslash escapes the following character. -/
def parseClassItems (l : List Char) : Option (List Char × List Char) :=
  match l with
  | [] => none
  | ']' :: rest => some ([], rest)
  | ['\\'] => none
  | '\\' :: c :: rest =>
    match parseClassItems rest with
    | none => none
    | some (cs, r) => some (c :: cs, r)
  | c :: rest =>
    match parseClassItems rest with
    | none => none
    | some (cs, r) => some (c :: cs, r)

/-- Parses a character class after the opening bracket: an optional negating
caret, then the items, where a closing bracket as the very first item is a
literal (as in Python); an empty or unterminated class is invalid. -/
def parseClass (l : List Char) : Option (Regex × List Char) :=
  let p := match l with
    | '^' :: rest => (true, rest)
    | _ => (false, l)
  match p.2 with
  | ']' :: rest =>
    match parseClassItems rest with
    | none => none
    | some (cs, r) => some (.cls (']' :: cs) p.1, r)
  | l1 =>
    match parseClassItems l1 with
    | none => none
    | some (cs, r) => some (.cls cs p.1, r)

mutual

/-- Parses a whole pattern level: concatenations separated by vertical bars.
The fuel decreases at every call and `parseRegex` passes enough of it. -/
def parseAlt : Nat → List Char → Option (Regex × List Char)
  | 0, _ => none
  | n + 1, s =>
    match parseCat n s with
    | none => none
    | some (r1, s1) =>
      match s1 with
      | '|' :: s2 =>
        match parseAlt n s2 with
        | none => none
        | some (r2, s3) => some (.alt r1 r2, s3)
      | _ => some (r1, s1)

/-- Parses a concatenation: a sequence of quantified atoms, ending at a
vertical bar, a closing parenthesis or the end of the pattern (possibly
empty, matching the empty string). -/
def parseCat : Nat → List Char → Option (Regex × List Char)
  | 0, _ => none
  | n + 1, s =>
    match s with
    | [] => some (.epsilon, [])
    | c :: _ =>
      if c = '|' ∨ c = ')' then some (.epsilon, s)
      else
        match parseRep n s with
        | none => none
        | some (r1, s1) =>
          match parseCat n s1 with
          | none => none
          | some (r2, s2) => some (.concat r1 r2, s2)

/-- Parses an atom with an optional quantifier.  A second quantifier in a row
is not an atom, so `a**` fails as in Python. -/
def parseRep : Nat → List Char → Option (Regex × List Char)
  | 0, _ => none
  | n + 1, s =>
    match parseAtom n s with
    | none => none
    | some (r, s1) =>
      match s1 with
      | '*' :: s2 => some (.star r, s2)
      | '+' :: s2 => some (.plus r, s2)
      | '?' :: s2 => some (.alt r .epsilon, s2)
      | _ => some (r, s1)

/-- Parses an atom: a parenthesised group, a character class, an escape (a
digit class for a backslash-d, a literal for an escaped non-alphanumeric
character), the dot, or a literal character.  Quantifiers with nothing to
repeat, unmatched parentheses, anchors and unsupported escapes are invalid. -/
def parseAtom : Nat → List Char → Option (Regex × List Char)
  | 0, _ => none
  | n + 1, s =>
    match s with
    | [] => none
    | '(' :: s1 =>
      match parseAlt n s1 with
      | none => none
      | some (r, s2) =>
        match s2 with
        | ')' :: s3 => some (.group r, s3)
        | _ => none
    | '[' :: s1 => parseClass s1
    | '\\' :: c :: s1 =>
      if c = 'd' then some (.cls ['0', '1', '2', '3', '4', '5', '6', '7', '8', '9'] false, s1)
      else if c.isAlphanum then none
      else some (.char c, s1)
    | '.' :: s1 => some (.cls ['\n'] true, s1)
    | c :: s1 =>
      if c = '*' ∨ c = '+' ∨ c = '?' ∨ c = '(' ∨ c = ')' ∨ c = '[' ∨ c = '|' ∨
          c = '^' ∨ c = '$' ∨ c = '\\' then none
      else some (.char c, s1)

end

/-- Python `re.compile` restricted to the supported dialect: parse the whole
pattern; a parse failure or unconsumed input (an unmatched closing
parenthesis) makes the pattern invalid. -/
def parseRegex (pattern : String) : Option Regex :=
  match parseAlt (4 * (pattern.length + 2)) pattern.data with
  | some (r, []) => some r
  | _ => none

/-- `TextProcessor.search_text` (`ml_functions.py` lines 118-135):
`re.findall(pattern, text)`, an invalid pattern raising the pattern error that
the method logs and re-raises. -/
def search_text (text pattern : String) : Except PyErr (List PyItem) :=
  match parseRegex pattern with
  | none => .error .patternError
  | some r => .ok (re_findall r text)

/-- The file-system state the embedded methods act on: the set of existing
directories and the contents of existing files, keyed by path. -/
structure FS where
  dirs : List String
  files : List (String × String)
deriving DecidableEq, Repr

/-- Content of the file at a path, if it exists. -/
def FS.lookupFile (fs : FS) (p : String) : Option String :=
  ((fs.files.find? (fun e => e.1 = p)).map (fun e => e.2))

/-- Create or truncate-and-overwrite the file at a path. -/
def FS.putFile (fs : FS) (p c : String) : FS :=
  { fs with files := (p, c) :: fs.files.filter (fun e => e.1 ≠ p) }

/-- Whether a directory exists. -/
def FS.hasDir (fs : FS) (d : String) : Bool :=
  fs.dirs.contains d

/-- Python `os.path.join` on POSIX paths, for two components: an absolute
second component replaces the first, otherwise a separator is inserted unless
the first component is empty or already ends with one. -/
def ospJoin (a b : String) : String :=
  if b.data.head? = some '/' then b
  else if a.data = [] ∨ a.data.getLast? = some '/' then a ++ b
  else a ++ "/" ++ b

/-- Splits a character list at every separator, keeping empty pieces; `cur` is
the piece being read, in reverse. -/
def splitSlashAux (l : List Char) (cur : List Char) : List (List Char) :=
  match l with
  | [] => [cur.reverse]
  | c :: rest =>
    if c = '/' then cur.reverse :: splitSlashAux rest []
    else splitSlashAux rest (c :: cur)

/-- The separator-delimited components of a path. -/
def pathParts (p : String) : List (List Char) :=
  splitSlashAux p.data []

/-- Joins path components with separators. -/
def joinSlash (parts : List (List Char)) : List Char :=
  match parts with
  | [] => []
  | [x] => x
  | x :: rest => x ++ '/' :: joinSlash rest

/-- The parent directory of a path: everything before the last separator
(empty for a bare relative name, meaning the working directory). -/
def dirName (p : String) : String :=
  String.mk (joinSlash (pathParts p).dropLast)

/-- The chain of paths `os.makedirs` creates: each prefix of the components of
the requested path. -/
def ancestorPaths (p : String) : List String :=
  let parts := pathParts p
  (List.range parts.length).map (fun i => String.mk (joinSlash (parts.take (i + 1))))

/-- Python `os.makedirs(p, exist_ok=True)`: create the directory and every
missing ancestor. -/
def FS.makedirs (fs : FS) (p : String) : FS :=
  { fs with dirs := fs.dirs ++ (ancestorPaths p).filter (fun d => !(fs.dirs.contains d)) }

/-- The configuration of a `TextProcessor` instance: its input and output
directories (`ml_functions.py` lines 24-25). -/
structure TextProcessor where
  input_dir : String
  output_dir : String
deriving DecidableEq, Repr

/-- `TextProcessor.__init__` (`ml_functions.py` lines 16-31): record both
directories and create them (with ancestors) if missing. -/
def mkTextProcessor (input_dir output_dir : String) (fs : FS) : TextProcessor × FS :=
  (⟨input_dir, output_dir⟩, (fs.makedirs input_dir).makedirs output_dir)

/-- `TextProcessor.read_text_file` (`ml_functions.py` lines 33-51): read the
file named relative to the input directory; a missing file raises the
not-found error, which the method logs and re-raises. -/
def read_text_file (tp : TextProcessor) (fs : FS) (filename : String) : Except PyErr String :=
  match fs.lookupFile (ospJoin tp.input_dir filename) with
  | some content => .ok content
  | none => .error .notFound

/-- `TextProcessor.write_text_file` (`ml_functions.py` lines 53-68): open the
path under the output directory for writing, which truncates an existing file
and fails when the parent directory of the target does not exist; the error is
logged and re-raised. -/
def write_text_file (tp : TextProcessor) (fs : FS) (filename content : String) :
    Except PyErr FS :=
  let p := ospJoin tp.output_dir filename
  if fs.hasDir (dirName p) then .ok (fs.putFile p content) else .error .writeError

/-- The section a single input file contributes to a merge: the
dash-delimited header line with the file name, then the raw content, then a
newline (`ml_functions.py` line 110). -/
def sectionOf (filename content : String) : String :=
  "--- " ++ filename ++ " ---\n" ++ content ++ "\n"

/-- `TextProcessor.merge_text_files` (`ml_functions.py` lines 98-116): read
every listed file from the input directory, join their sections with a
newline, and write the result under the output directory; any error is
re-raised. -/
def merge_text_files (tp : TextProcessor) (fs : FS) (file_list : List String)
    (output_filename : String) : Except PyErr FS :=
  match file_list.mapM (fun filename => read_text_file tp fs filename) with
  | .error e => .error e
  | .ok contents =>
    write_text_file tp fs output_filename
      (String.intercalate "\n" (List.zipWith sectionOf file_list contents))

/-- Python `os.path.splitext(p)[0]`: everything before the extension, where
the extension starts at the last dot of the final path component, unless that
component up to the dot is entirely dots. -/
def splitextRoot (p : String) : String :=
  let l := p.data
  let sepIdx : Nat := match (l.reverse.findIdx? (fun c => c = '/')) with
    | none => 0
    | some k => l.length - k
  match (l.reverse.findIdx? (fun c => c = '.')) with
  | none => p
  | some k =>
    let d := l.length - 1 - k
    if ((l.drop sepIdx).take (d - sepIdx)).all (fun c => c = '.') then p
    else String.mk (l.take d)

/-- A wall-clock instant, standing in for `datetime.now()`. -/
structure Timestamp where
  year : Nat
  month : Nat
  day : Nat
  hour : Nat
  minute : Nat
  second : Nat
deriving DecidableEq, Repr

/-- The ranges in which `datetime.now()` values lie, under which the embedded
formatting agrees with `strftime`. -/
def Timestamp.Valid (t : Timestamp) : Prop :=
  1000 ≤ t.year ∧ t.year ≤ 9999 ∧ 1 ≤ t.month ∧ t.month ≤ 12 ∧ 1 ≤ t.day ∧
    t.day ≤ 31 ∧ t.hour ≤ 23 ∧ t.minute ≤ 59 ∧ t.second ≤ 59

/-- Two-digit zero-padded decimal rendering of a number below one hundred. -/
def pad2 (n : Nat) : String :=
  String.mk [Nat.digitChar (n / 10 % 10), Nat.digitChar (n % 10)]

/-- Four-digit zero-padded decimal rendering of a number below ten thousand. -/
def pad4 (n : Nat) : String :=
  String.mk [Nat.digitChar (n / 1000 % 10), Nat.digitChar (n / 100 % 10),
    Nat.digitChar (n / 10 % 10), Nat.digitChar (n % 10)]

/-- The date part of the backup timestamp (`strftime` year-month-day). -/
def datePart (t : Timestamp) : String :=
  pad4 t.year ++ pad2 t.month ++ pad2 t.day

/-- The time part of the backup timestamp (`strftime` hour-minute-second). -/
def timePart (t : Timestamp) : String :=
  pad2 t.hour ++ pad2 t.minute ++ pad2 t.second

/-- `datetime.now().strftime` with the backup format of `ml_functions.py`
line 149: eight date digits, an underscore, six time digits. -/
def strftimeTs (t : Timestamp) : String :=
  datePart t ++ "_" ++ timePart t

/-- The backup file name generated at `ml_functions.py` line 150. -/
def backupName (filename : String) (t : Timestamp) : String :=
  splitextRoot filename ++ "_" ++ strftimeTs t ++ ".bak"

/-- `TextProcessor.create_backup` (`ml_functions.py` lines 137-156): read the
file from the input directory, build the timestamped backup name, write the
content under that name in the output directory, and return the name; any
error is re-raised. -/
def create_backup (tp : TextProcessor) (fs : FS) (now : Timestamp) (filename : String) :
    Except PyErr (String × FS) :=
  match read_text_file tp fs filename with
  | .error e => .error e
  | .ok content =>
    match write_text_file tp fs (backupName filename now) content with
    | .error e => .error e
    | .ok fs2 => .ok (backupName filename now, fs2)

/-! Helper lemmas about the sentence scanner. -/

theorem splitSentAux_length (l : List Char) : ∀ cur inRun,
    (splitSentAux l cur inRun).length = delimRunCountAux l inRun + 1 := by
  induction l with
  | nil => intro cur inRun; simp [splitSentAux, delimRunCountAux]
  | cons c rest ih =>
    intro cur inRun
    simp only [splitSentAux, delimRunCountAux]
    cases hc : isSentDelim c <;> cases inRun <;> (simp [ih]; try omega)

theorem splitSent_length (l : List Char) :
    (splitSent l).length = delimRunCount l + 1 :=
  splitSentAux_length l [] false

/-! Helper lemmas about `analyze_text`. -/

theorem averageWordLength_isOk (ws : List String) : ∃ q, averageWordLength ws = .ok q := by
  unfold averageWordLength pyDiv
  by_cases h : ws.isEmpty
  · rw [if_pos h]; exact ⟨0, rfl⟩
  · rw [if_neg h, if_neg ?hne]
    · exact ⟨_, rfl⟩
    case hne =>
      have hnil : ws ≠ [] := fun hh => h (by simp [hh])
      have hlen : ws.length ≠ 0 := fun hh => hnil (List.length_eq_zero.mp hh)
      exact fun hc => hlen (by exact_mod_cast hc)

theorem analyze_text_fields (text : String) (r : AnalysisResult)
    (h : analyze_text text = .ok r) :
    r.word_count = (pyWords text).length ∧
    r.character_count = text.length ∧
    r.sentence_count = (splitSent text.data).length ∧
    r.most_common_words = most_common (pyWords text) 5 ∧
    averageWordLength (pyWords text) = .ok r.average_word_length := by
  simp only [analyze_text] at h
  cases havg : averageWordLength (pyWords text) with
  | error e => rw [havg] at h; simp at h
  | ok q =>
    rw [havg] at h
    simp only [Except.ok.injEq] at h
    subst h
    exact ⟨rfl, rfl, rfl, rfl, rfl⟩

/-! Claims about sentence counting and the average word length. -/

/-- Claim C6: for every string `text`, the `sentence_count` field of
`analyze_text text` equals the length of the sequence obtained by splitting
`text` on maximal runs of the characters dot, exclamation mark and question
mark, consecutive delimiters acting as a single split point — equivalently,
one more than the number of maximal delimiter runs. -/
theorem sentence_count_spec (text : String) (r : AnalysisResult)
    (h : analyze_text text = .ok r) :
    r.sentence_count = (splitSent text.data).length ∧
    r.sentence_count = delimRunCount text.data + 1 := by
  obtain ⟨-, -, hs, -, -⟩ := analyze_text_fields text r h
  exact ⟨hs, by rw [hs, splitSent_length]⟩

/-- Witness for C6 at a concrete input containing a run of two delimiters. -/
theorem sentence_count_spec_witness :
    (⟨1, 4, 2, 4/1, [("a..b", 1)]⟩ : AnalysisResult).sentence_count =
        (splitSent "a..b".data).length ∧
      (⟨1, 4, 2, 4/1, [("a..b", 1)]⟩ : AnalysisResult).sentence_count =
        delimRunCount "a..b".data + 1 :=
  sentence_count_spec "a..b" ⟨1, 4, 2, 4/1, [("a..b", 1)]⟩ rfl

/-- Claim C10: the sentence count is at least one for every input, the empty
string included, and a trailing empty fragment after a final delimiter is
counted rather than dropped, as the analysis of a text ending in a delimiter
shows. -/
theorem sentence_count_pos (text : String) (r : AnalysisResult)
    (h : analyze_text text = .ok r) :
    1 ≤ r.sentence_count ∧
      analyze_text "a." = .ok ⟨1, 2, 2, 2/1, [("a.", 1)]⟩ := by
  refine ⟨?_, rfl⟩
  obtain ⟨-, -, hs, -, -⟩ := analyze_text_fields text r h
  rw [hs, splitSent_length]
  omega

/-- Witness for C10 at the empty string. -/
theorem sentence_count_pos_witness :
    1 ≤ (⟨0, 0, 1, 0, []⟩ : AnalysisResult).sentence_count ∧
      analyze_text "a." = .ok ⟨1, 2, 2, 2/1, [("a.", 1)]⟩ :=
  sentence_count_pos "" ⟨0, 0, 1, 0, []⟩ rfl

/-- Claim C9: `analyze_text` succeeds and returns a result on every string
input; its error branch is unreachable. -/
theorem analyze_text_total (text : String) : ∃ r, analyze_text text = .ok r := by
  obtain ⟨q, hq⟩ := averageWordLength_isOk (pyWords text)
  refine ⟨⟨(pyWords text).length, text.length, (splitSent text.data).length, q,
    most_common (pyWords text) 5⟩, ?_⟩
  simp only [analyze_text]
  rw [hq]

/-- Claim C7: the analysis of the empty string has zero word count, zero
character count, average word length zero and no most common words; in
general a zero word count yields average zero rather than an error, and a
non-zero word count yields the sum of the word lengths divided by the word
count. -/
theorem average_word_length_spec (text : String) (r : AnalysisResult)
    (h : analyze_text text = .ok r) :
    (analyze_text "" = .ok ⟨0, 0, 1, 0, []⟩) ∧
    (r.word_count = 0 → r.average_word_length = 0) ∧
    (r.word_count ≠ 0 →
      r.average_word_length =
        (((pyWords text).map String.length).sum : ℚ) / (r.word_count : ℚ)) := by
  obtain ⟨hw, -, -, -, havg⟩ := analyze_text_fields text r h
  refine ⟨rfl, ?_, ?_⟩
  · intro h0
    have hnil : pyWords text = [] := List.length_eq_zero.mp (hw.symm.trans h0)
    rw [hnil] at havg
    simp only [averageWordLength, List.isEmpty_nil, if_pos, Except.ok.injEq] at havg
    exact havg.symm
  · intro h0
    have hnnil : pyWords text ≠ [] := by
      intro hh
      exact h0 (by rw [hw, hh]; rfl)
    have hlen0 : (pyWords text).length ≠ 0 := fun hh => hnnil (List.length_eq_zero.mp hh)
    have hlenQ : (((pyWords text).length : ℕ) : ℚ) ≠ 0 := Nat.cast_ne_zero.mpr hlen0
    unfold averageWordLength pyDiv at havg
    rw [if_neg (by simp [hnnil]), if_neg hlenQ] at havg
    simp only [Except.ok.injEq] at havg
    rw [hw]
    exact havg.symm

/-- Witness for C7 at the empty string. -/
theorem average_word_length_spec_witness :
    (analyze_text "" = .ok ⟨0, 0, 1, 0, []⟩) ∧
    ((⟨0, 0, 1, 0, []⟩ : AnalysisResult).word_count = 0 →
      (⟨0, 0, 1, 0, []⟩ : AnalysisResult).average_word_length = 0) ∧
    ((⟨0, 0, 1, 0, []⟩ : AnalysisResult).word_count ≠ 0 →
      (⟨0, 0, 1, 0, []⟩ : AnalysisResult).average_word_length =
        (((pyWords "").map String.length).sum : ℚ) /
          ((⟨0, 0, 1, 0, []⟩ : AnalysisResult).word_count : ℚ)) :=
  average_word_length_spec "" ⟨0, 0, 1, 0, []⟩ rfl

/-! Helper lemmas about the stable descending sort behind `most_common`. -/

theorem insertByCount_perm (x : String × Nat) (l : List (String × Nat)) :
    List.Perm (insertByCount x l) (x :: l) := by
  induction l with
  | nil => exact List.Perm.refl _
  | cons y ys ih =>
    simp only [insertByCount]
    by_cases h : y.2 < x.2
    · rw [if_pos h]
    · rw [if_neg h]
      exact (ih.cons y).trans (List.Perm.swap x y ys)

theorem pairwise_insertByCount (x : String × Nat) (l : List (String × Nat))
    (h : l.Pairwise (fun a b => b.2 ≤ a.2)) :
    (insertByCount x l).Pairwise (fun a b => b.2 ≤ a.2) := by
  induction l with
  | nil => simp [insertByCount]
  | cons y ys ih =>
    rw [List.pairwise_cons] at h
    obtain ⟨hy, hys⟩ := h
    simp only [insertByCount]
    by_cases hlt : y.2 < x.2
    · rw [if_pos hlt]
      refine List.pairwise_cons.mpr ⟨?_, List.pairwise_cons.mpr ⟨hy, hys⟩⟩
      intro b hb
      rcases List.mem_cons.mp hb with rfl | hb'
      · exact Nat.le_of_lt hlt
      · exact Nat.le_trans (hy b hb') (Nat.le_of_lt hlt)
    · rw [if_neg hlt]
      refine List.pairwise_cons.mpr ⟨?_, ih hys⟩
      intro b hb
      rcases List.mem_cons.mp ((insertByCount_perm x ys).subset hb) with rfl | hb'
      · exact Nat.le_of_not_lt hlt
      · exact hy b hb'

theorem filter_insertByCount (x : String × Nat) (c : Nat) (l : List (String × Nat))
    (h : l.Pairwise (fun a b => b.2 ≤ a.2)) :
    (insertByCount x l).filter (fun p => p.2 == c) =
      l.filter (fun p => p.2 == c) ++ (if x.2 = c then [x] else []) := by
  induction l with
  | nil =>
    by_cases hx : x.2 = c <;> simp [insertByCount, List.filter_cons, hx]
  | cons y ys ih =>
    rw [List.pairwise_cons] at h
    obtain ⟨hy, hys⟩ := h
    simp only [insertByCount]
    by_cases hlt : y.2 < x.2
    · rw [if_pos hlt]
      by_cases hx : x.2 = c
      · have hnil : (y :: ys).filter (fun p => p.2 == c) = [] := by
          rw [List.filter_eq_nil_iff]
          intro a ha
          have ha2 : a.2 ≤ y.2 := by
            rcases List.mem_cons.mp ha with rfl | ha'
            · exact Nat.le_refl _
            · exact hy a ha'
          simp only [beq_iff_eq]
          omega
        rw [List.filter_cons_of_pos (by simp [hx]), hnil, if_pos hx]
        rfl
      · rw [List.filter_cons_of_neg (by simp [hx]), if_neg hx]
        simp
    · rw [if_neg hlt]
      rw [List.filter_cons, List.filter_cons, ih hys]
      by_cases hyc : y.2 = c <;> simp [hyc]

theorem sortFold_perm (l : List (String × Nat)) : ∀ acc,
    List.Perm (List.foldl (fun acc x => insertByCount x acc) acc l) (acc ++ l) := by
  induction l with
  | nil =>
    intro acc
    rw [List.foldl_nil, List.append_nil]
  | cons x xs ih =>
    intro acc
    simp only [List.foldl_cons]
    refine (ih (insertByCount x acc)).trans ?_
    refine ((insertByCount_perm x acc).append_right xs).trans ?_
    exact List.perm_middle.symm

theorem sortFold_pairwise (l : List (String × Nat)) : ∀ acc,
    acc.Pairwise (fun a b => b.2 ≤ a.2) →
    (List.foldl (fun acc x => insertByCount x acc) acc l).Pairwise (fun a b => b.2 ≤ a.2) := by
  induction l with
  | nil => intro acc h; simpa using h
  | cons x xs ih =>
    intro acc h
    simp only [List.foldl_cons]
    exact ih _ (pairwise_insertByCount x acc h)

theorem sortFold_filter (l : List (String × Nat)) (c : Nat) : ∀ acc,
    acc.Pairwise (fun a b => b.2 ≤ a.2) →
    (List.foldl (fun acc x => insertByCount x acc) acc l).filter (fun p => p.2 == c) =
      acc.filter (fun p => p.2 == c) ++ l.filter (fun p => p.2 == c) := by
  induction l with
  | nil => intro acc h; simp
  | cons x xs ih =>
    intro acc h
    simp only [List.foldl_cons]
    rw [ih _ (pairwise_insertByCount x acc h), filter_insertByCount x c acc h,
      List.filter_cons, List.append_assoc]
    by_cases hx : x.2 = c <;> simp [hx]

theorem stableSortDesc_perm (l : List (String × Nat)) :
    List.Perm (stableSortDesc l) l := by
  simpa using sortFold_perm l []

theorem stableSortDesc_pairwise (l : List (String × Nat)) :
    (stableSortDesc l).Pairwise (fun a b => b.2 ≤ a.2) :=
  sortFold_pairwise l [] List.Pairwise.nil

theorem stableSortDesc_filter (l : List (String × Nat)) (c : Nat) :
    (stableSortDesc l).filter (fun p => p.2 == c) = l.filter (fun p => p.2 == c) := by
  simpa using sortFold_filter l c [] List.Pairwise.nil

/-- Claim C1: `most_common_words` lists the at-most-five highest-frequency
distinct whitespace-separated words as word-count pairs: its length is the
smaller of five and the number of distinct words, counts are in descending
order, every listed pair is a distinct word with its true multiplicity, every
unlisted distinct word has a count no larger than any listed one, and within
any one count value the listed pairs keep the first-appearance order of the
counter items; in particular the analysis of the three-word text has word
count three and the two expected pairs. -/
theorem most_common_words_spec (text : String) (r : AnalysisResult)
    (h : analyze_text text = .ok r) :
    r.most_common_words.length = min 5 (dedupFirst (pyWords text)).length ∧
    r.most_common_words.Pairwise (fun a b => b.2 ≤ a.2) ∧
    (∀ p ∈ r.most_common_words, p ∈ counterItems (pyWords text)) ∧
    (∀ w ∈ dedupFirst (pyWords text), (∀ p ∈ r.most_common_words, p.1 ≠ w) →
      ∀ p ∈ r.most_common_words, (pyWords text).count w ≤ p.2) ∧
    (∀ c : Nat, List.Sublist (r.most_common_words.filter (fun p => p.2 == c))
      ((counterItems (pyWords text)).filter (fun p => p.2 == c))) ∧
    analyze_text "a a b" = .ok ⟨3, 5, 1, 3/3, [("a", 2), ("b", 1)]⟩ := by
  obtain ⟨-, -, -, hmc, -⟩ := analyze_text_fields text r h
  have hperm := stableSortDesc_perm (counterItems (pyWords text))
  have hpw := stableSortDesc_pairwise (counterItems (pyWords text))
  refine ⟨?_, ?_, ?_, ?_, ?_, rfl⟩
  · rw [hmc]
    show ((stableSortDesc (counterItems (pyWords text))).take 5).length = _
    rw [List.length_take, hperm.length_eq]
    simp [counterItems]
  · rw [hmc]
    exact hpw.sublist (List.take_sublist _ _)
  · rw [hmc]
    intro p hp
    exact hperm.subset (List.mem_of_mem_take hp)
  · rw [hmc]
    intro w hw hnot p hp
    have hwitem : (w, (pyWords text).count w) ∈ counterItems (pyWords text) :=
      List.mem_map_of_mem _ hw
    have hsorted : (w, (pyWords text).count w) ∈
        stableSortDesc (counterItems (pyWords text)) := hperm.mem_iff.mpr hwitem
    have hsplit := List.take_append_drop 5 (stableSortDesc (counterItems (pyWords text)))
    rw [← hsplit] at hsorted
    rcases List.mem_append.mp hsorted with hin | hout
    · exact absurd rfl (hnot _ hin)
    · have hpw' := hpw
      rw [← hsplit] at hpw'
      exact (List.pairwise_append.mp hpw').2.2 p hp _ hout
  · rw [hmc]
    intro c
    have hfs := stableSortDesc_filter (counterItems (pyWords text)) c
    exact hfs ▸ List.Sublist.filter _ (List.take_sublist 5 _)

/-- Witness for C1 at the three-word example text of the specification. -/
theorem most_common_words_spec_witness :
    (⟨3, 5, 1, 3/3, [("a", 2), ("b", 1)]⟩ : AnalysisResult).most_common_words.length =
        min 5 (dedupFirst (pyWords "a a b")).length ∧
    (⟨3, 5, 1, 3/3, [("a", 2), ("b", 1)]⟩ : AnalysisResult).most_common_words.Pairwise
        (fun a b => b.2 ≤ a.2) ∧
    (∀ p ∈ (⟨3, 5, 1, 3/3, [("a", 2), ("b", 1)]⟩ : AnalysisResult).most_common_words,
      p ∈ counterItems (pyWords "a a b")) ∧
    (∀ w ∈ dedupFirst (pyWords "a a b"),
      (∀ p ∈ (⟨3, 5, 1, 3/3, [("a", 2), ("b", 1)]⟩ : AnalysisResult).most_common_words,
        p.1 ≠ w) →
      ∀ p ∈ (⟨3, 5, 1, 3/3, [("a", 2), ("b", 1)]⟩ : AnalysisResult).most_common_words,
        (pyWords "a a b").count w ≤ p.2) ∧
    (∀ c : Nat, List.Sublist
      ((⟨3, 5, 1, 3/3, [("a", 2), ("b", 1)]⟩ : AnalysisResult).most_common_words.filter
        (fun p => p.2 == c))
      ((counterItems (pyWords "a a b")).filter (fun p => p.2 == c))) ∧
    analyze_text "a a b" = .ok ⟨3, 5, 1, 3/3, [("a", 2), ("b", 1)]⟩ :=
  most_common_words_spec "a a b" ⟨3, 5, 1, 3/3, [("a", 2), ("b", 1)]⟩ rfl

/-! Claims about pattern search and error signalling. -/

/-- Claim C2, amended: for a pattern of the supported dialect that contains no
capture groups, `search_text` returns exactly the non-overlapping matched
substrings, in order of the position of the first character of each match.
As stated the claim is false: with capture groups, `re.findall` returns the
groups' captures instead of the matched substrings (see the
counterexample). -/
theorem search_text_no_groups (text pattern : String) (r : Regex)
    (hp : parseRegex pattern = some r) (hg : numGroups r = 0) :
    search_text text pattern = .ok ((fullMatches r text).map PyItem.str) := by
  unfold search_text
  rw [hp]
  show Except.ok (re_findall r text) = _
  simp only [re_findall]
  rw [if_pos hg]
  simp [fullMatches, List.map_map, Function.comp]

/-- Witness for C2 at the specification's own example pattern, which has no
groups: the two print calls are returned as matched substrings. -/
theorem search_text_no_groups_witness :
    search_text "print(1) print(2)" "print\\([^)]+\\)" =
      .ok ((fullMatches ((parseRegex "print\\([^)]+\\)").getD .epsilon)
        "print(1) print(2)").map PyItem.str) ∧
    fullMatches ((parseRegex "print\\([^)]+\\)").getD .epsilon) "print(1) print(2)" =
      ["print(1)", "print(2)"] :=
  ⟨search_text_no_groups "print(1) print(2)" "print\\([^)]+\\)"
    ((parseRegex "print\\([^)]+\\)").getD .epsilon) rfl rfl, by decide⟩

/-- Counterexample to C2 as stated: on the pattern with one capture group, the
matched substring is the whole two-character text, but `search_text` returns
only the captured group. -/
theorem search_text_groups_counterexample :
    search_text "ab" "(a)b" = .ok [PyItem.str "a"] ∧
    (parseRegex "(a)b").map (fun r => fullMatches r "ab") = some ["ab"] ∧
    [PyItem.str "a"] ≠ [PyItem.str "ab"] :=
  ⟨rfl, rfl, by decide⟩

/-- Claim C8: `read_text_file` fails with the not-found error exactly when the
file is missing under the configured input directory, `search_text` fails
with the pattern error exactly when the pattern does not compile, and in both
cases the error is returned to the caller (illustrated on concrete
instances). -/
theorem error_signalling_spec :
    (∀ (tp : TextProcessor) (fs : FS) (name : String),
      read_text_file tp fs name = .error .notFound ↔
        fs.lookupFile (ospJoin tp.input_dir name) = none) ∧
    (∀ text pattern : String,
      search_text text pattern = .error .patternError ↔ parseRegex pattern = none) ∧
    search_text "abc" "(" = .error .patternError ∧
    search_text "abc" "a" = .ok [.str "a"] ∧
    read_text_file ⟨"data/input", "data/output"⟩ ⟨["data/input"], []⟩ "missing.txt" =
      .error .notFound := by
  refine ⟨?_, ?_, rfl, rfl, rfl⟩
  · intro tp fs name
    unfold read_text_file
    cases fs.lookupFile (ospJoin tp.input_dir name) <;> simp
  · intro text pattern
    unfold search_text
    cases parseRegex pattern <;> simp

/-! Helper lemmas about the file-system model. -/

theorem lookupFile_putFile (fs : FS) (p c : String) :
    (fs.putFile p c).lookupFile p = some c := by
  unfold FS.lookupFile FS.putFile
  rw [List.find?_cons_of_pos _ (by simp)]
  rfl

theorem splitSlashAux_ne_nil (l : List Char) : ∀ cur, splitSlashAux l cur ≠ [] := by
  induction l with
  | nil => intro cur; simp [splitSlashAux]
  | cons c rest ih =>
    intro cur
    simp only [splitSlashAux]
    by_cases h : c = '/'
    · rw [if_pos h]; simp
    · rw [if_neg h]; exact ih _

theorem joinSlash_splitSlashAux (l : List Char) : ∀ cur,
    joinSlash (splitSlashAux l cur) = cur.reverse ++ l := by
  induction l with
  | nil => intro cur; simp [splitSlashAux, joinSlash]
  | cons c rest ih =>
    intro cur
    simp only [splitSlashAux]
    by_cases h : c = '/'
    · rw [if_pos h]
      cases hL : splitSlashAux rest [] with
      | nil => exact absurd hL (splitSlashAux_ne_nil rest [])
      | cons y L =>
        have hrest : joinSlash (y :: L) = rest := by
          have := ih []
          rw [hL] at this
          simpa using this
        simp [joinSlash, hrest, h]
    · rw [if_neg h]
      rw [ih (c :: cur)]
      simp

theorem joinSlash_pathParts (p : String) : joinSlash (pathParts p) = p.data := by
  simpa using joinSlash_splitSlashAux p.data []

theorem mem_ancestorPaths_self (p : String) : p ∈ ancestorPaths p := by
  unfold ancestorPaths
  have hne : pathParts p ≠ [] := splitSlashAux_ne_nil _ _
  have hlen : 0 < (pathParts p).length := List.length_pos.mpr hne
  refine List.mem_map.mpr ⟨(pathParts p).length - 1, List.mem_range.mpr (by omega), ?_⟩
  have htake : (pathParts p).length - 1 + 1 = (pathParts p).length := by omega
  rw [htake, List.take_length, joinSlash_pathParts]

theorem hasDir_makedirs_self (fs : FS) (p : String) : (fs.makedirs p).hasDir p = true := by
  unfold FS.makedirs FS.hasDir
  by_cases h : fs.dirs.contains p
  · exact List.elem_eq_true_of_mem
      (List.mem_append_left _ (List.mem_of_elem_eq_true h))
  · refine List.elem_eq_true_of_mem (List.mem_append_right _ ?_)
    refine List.mem_filter.mpr ⟨mem_ancestorPaths_self p, ?_⟩
    simp only [Bool.not_eq_true']
    exact Bool.not_eq_true _ ▸ (by simpa using h)

theorem hasDir_makedirs_mono (fs : FS) (p d : String) (h : fs.hasDir d = true) :
    (fs.makedirs p).hasDir d = true := by
  unfold FS.makedirs FS.hasDir
  exact List.elem_eq_true_of_mem
    (List.mem_append_left _ (List.mem_of_elem_eq_true h))

/-! Helper lemmas about the timestamp digits. -/

theorem isDigit_digitChar_mod (n : Nat) : (Nat.digitChar (n % 10)).isDigit = true := by
  have h : n % 10 < 10 := Nat.mod_lt _ (by decide)
  set k := n % 10 with hk
  interval_cases k <;> decide

theorem datePart_length (t : Timestamp) : (datePart t).length = 8 := by
  simp [datePart, pad4, pad2, String.length_append]

theorem timePart_length (t : Timestamp) : (timePart t).length = 6 := by
  simp [timePart, pad2, String.length_append]

theorem datePart_digits (t : Timestamp) : (datePart t).data.all Char.isDigit = true := by
  simp [datePart, pad4, pad2, String.data_append, List.all_append, isDigit_digitChar_mod]

theorem timePart_digits (t : Timestamp) : (timePart t).data.all Char.isDigit = true := by
  simp [timePart, pad2, String.data_append, List.all_append, isDigit_digitChar_mod]

/-! Claims about the file helpers. -/

/-- Claim C5, amended: `write_text_file` does not create missing parent
directories of the target — such a write fails (see the counterexample);
the configured input and output directories themselves, with their ancestors,
are created at initialisation, and whenever the parent directory of the
target exists the write succeeds and the file's content afterwards equals the
given content, overwriting any previous content. -/
theorem write_text_file_spec (tp : TextProcessor) (fs : FS) (name content : String)
    (hdir : fs.hasDir (dirName (ospJoin tp.output_dir name)) = true) :
    write_text_file tp fs name content =
      .ok (fs.putFile (ospJoin tp.output_dir name) content) ∧
    (fs.putFile (ospJoin tp.output_dir name) content).lookupFile
      (ospJoin tp.output_dir name) = some content ∧
    (∀ (i o : String) (fs0 : FS),
      ((mkTextProcessor i o fs0).2).hasDir i = true ∧
      ((mkTextProcessor i o fs0).2).hasDir o = true) := by
  refine ⟨?_, lookupFile_putFile _ _ _, ?_⟩
  · simp only [write_text_file]
    rw [if_pos hdir]
  · intro i o fs0
    exact ⟨hasDir_makedirs_mono _ _ _ (hasDir_makedirs_self fs0 i),
      hasDir_makedirs_self _ o⟩

/-- Witness for C5 at a plain file name under the initialised directories. -/
theorem write_text_file_spec_witness :
    write_text_file ⟨"data/input", "data/output"⟩
        ⟨["data", "data/input", "data/output"], []⟩ "out.txt" "x" =
      .ok ((⟨["data", "data/input", "data/output"], []⟩ : FS).putFile
        (ospJoin "data/output" "out.txt") "x") ∧
    ((⟨["data", "data/input", "data/output"], []⟩ : FS).putFile
        (ospJoin "data/output" "out.txt") "x").lookupFile
      (ospJoin "data/output" "out.txt") = some "x" ∧
    (∀ (i o : String) (fs0 : FS),
      ((mkTextProcessor i o fs0).2).hasDir i = true ∧
      ((mkTextProcessor i o fs0).2).hasDir o = true) :=
  write_text_file_spec ⟨"data/input", "data/output"⟩
    ⟨["data", "data/input", "data/output"], []⟩ "out.txt" "x" (by decide)

/-- Counterexample to C5 as stated: writing to a name with a missing
subdirectory under the freshly initialised output directory fails with the
write error instead of creating the parent directory. -/
theorem write_text_file_no_mkdir_counterexample :
    write_text_file ⟨"data/input", "data/output"⟩
        ⟨["data", "data/input", "data/output"], []⟩ "sub/a.txt" "x" =
      .error .writeError ∧
    (⟨["data", "data/input", "data/output"], []⟩ : FS).hasDir "data/output/sub" = false :=
  ⟨rfl, rfl⟩

/-- Claim C3, amended: for an existing input file, `create_backup` returns the
name made of the basename, an underscore, eight date digits, an underscore,
six time digits and the dot-bak extension, and writes the original content
under that name in the output directory, where looking it up yields exactly
that content; `read_text_file` of the returned name reads the input directory
instead and does not find the backup (see the counterexample). -/
theorem create_backup_spec (tp : TextProcessor) (fs : FS) (now : Timestamp)
    (name content : String)
    (hread : read_text_file tp fs name = .ok content)
    (hdir : fs.hasDir (dirName (ospJoin tp.output_dir (backupName name now))) = true)
    (_hvalid : now.Valid) :
    create_backup tp fs now name =
      .ok (backupName name now,
        fs.putFile (ospJoin tp.output_dir (backupName name now)) content) ∧
    (fs.putFile (ospJoin tp.output_dir (backupName name now)) content).lookupFile
      (ospJoin tp.output_dir (backupName name now)) = some content ∧
    backupName name now =
      splitextRoot name ++ "_" ++ (datePart now ++ "_" ++ timePart now) ++ ".bak" ∧
    (datePart now).length = 8 ∧ (timePart now).length = 6 ∧
    (datePart now).data.all Char.isDigit = true ∧
    (timePart now).data.all Char.isDigit = true := by
  refine ⟨?_, lookupFile_putFile _ _ _, rfl, datePart_length now, timePart_length now,
    datePart_digits now, timePart_digits now⟩
  unfold create_backup
  rw [hread]
  simp only [write_text_file]
  rw [if_pos hdir]

/-- Witness for C3 at a concrete file and timestamp. -/
theorem create_backup_spec_witness :
    create_backup ⟨"data/input", "data/output"⟩
        ⟨["data", "data/input", "data/output"], [("data/input/a.txt", "hello")]⟩
        ⟨2026, 1, 2, 3, 4, 5⟩ "a.txt" =
      .ok (backupName "a.txt" ⟨2026, 1, 2, 3, 4, 5⟩,
        (⟨["data", "data/input", "data/output"], [("data/input/a.txt", "hello")]⟩ : FS).putFile
          (ospJoin "data/output" (backupName "a.txt" ⟨2026, 1, 2, 3, 4, 5⟩)) "hello") ∧
    ((⟨["data", "data/input", "data/output"], [("data/input/a.txt", "hello")]⟩ : FS).putFile
        (ospJoin "data/output" (backupName "a.txt" ⟨2026, 1, 2, 3, 4, 5⟩)) "hello").lookupFile
      (ospJoin "data/output" (backupName "a.txt" ⟨2026, 1, 2, 3, 4, 5⟩)) = some "hello" ∧
    backupName "a.txt" ⟨2026, 1, 2, 3, 4, 5⟩ =
      splitextRoot "a.txt" ++ "_" ++
        (datePart ⟨2026, 1, 2, 3, 4, 5⟩ ++ "_" ++ timePart ⟨2026, 1, 2, 3, 4, 5⟩) ++ ".bak" ∧
    (datePart ⟨2026, 1, 2, 3, 4, 5⟩).length = 8 ∧
    (timePart ⟨2026, 1, 2, 3, 4, 5⟩).length = 6 ∧
    (datePart ⟨2026, 1, 2, 3, 4, 5⟩).data.all Char.isDigit = true ∧
    (timePart ⟨2026, 1, 2, 3, 4, 5⟩).data.all Char.isDigit = true :=
  create_backup_spec ⟨"data/input", "data/output"⟩
    ⟨["data", "data/input", "data/output"], [("data/input/a.txt", "hello")]⟩
    ⟨2026, 1, 2, 3, 4, 5⟩ "a.txt" "hello" rfl (by decide)
    (by unfold Timestamp.Valid; decide)

/-- Counterexample to C3 as stated: the backup goes to the output directory,
so a subsequent `read_text_file` of the returned name, which reads the input
directory, fails with the not-found error instead of returning the original
content. -/
theorem create_backup_readback_counterexample :
    create_backup ⟨"data/input", "data/output"⟩
        ⟨["data", "data/input", "data/output"], [("data/input/a.txt", "hello")]⟩
        ⟨2026, 1, 2, 3, 4, 5⟩ "a.txt" =
      .ok ("a_20260102_030405.bak",
        ⟨["data", "data/input", "data/output"],
          [("data/output/a_20260102_030405.bak", "hello"), ("data/input/a.txt", "hello")]⟩) ∧
    read_text_file ⟨"data/input", "data/output"⟩
      ⟨["data", "data/input", "data/output"],
        [("data/output/a_20260102_030405.bak", "hello"), ("data/input/a.txt", "hello")]⟩
      "a_20260102_030405.bak" = .error .notFound ∧
    (Except.error PyErr.notFound : Except PyErr String) ≠ .ok "hello" :=
  ⟨rfl, rfl, by decide⟩

/-- Claim C4, amended: when every listed file exists in the input directory,
`merge_text_files` writes under the output directory the sections in input
order, each section being the dash-delimited header line with the file name,
the raw content and a newline, sections joined by a newline (so a blank line
separates one section's content from the next header); looking the output
file up in the output directory yields exactly that merged content, while
`read_text_file` of the output name reads the input directory and fails
(see the counterexample). -/
theorem merge_text_files_spec (tp : TextProcessor) (fs : FS)
    (file_list : List String) (output_filename : String) (contents : List String)
    (hread : file_list.mapM (fun filename => read_text_file tp fs filename) = .ok contents)
    (hdir : fs.hasDir (dirName (ospJoin tp.output_dir output_filename)) = true) :
    merge_text_files tp fs file_list output_filename =
      .ok (fs.putFile (ospJoin tp.output_dir output_filename)
        (String.intercalate "\n" (List.zipWith sectionOf file_list contents))) ∧
    (fs.putFile (ospJoin tp.output_dir output_filename)
        (String.intercalate "\n" (List.zipWith sectionOf file_list contents))).lookupFile
      (ospJoin tp.output_dir output_filename) =
      some (String.intercalate "\n" (List.zipWith sectionOf file_list contents)) ∧
    (∀ n1 n2 c1 c2 : String,
      String.intercalate "\n" (List.zipWith sectionOf [n1, n2] [c1, c2]) =
        "--- " ++ n1 ++ " ---\n" ++ c1 ++ "\n" ++ "\n" ++
          "--- " ++ n2 ++ " ---\n" ++ c2 ++ "\n") := by
  refine ⟨?_, lookupFile_putFile _ _ _, ?_⟩
  · unfold merge_text_files
    rw [hread]
    simp only [write_text_file]
    rw [if_pos hdir]
  · intro n1 n2 c1 c2
    show sectionOf n1 c1 ++ "\n" ++ sectionOf n2 c2 = _
    have hext : ∀ s t : String, s.data = t.data → s = t := by
      intro s t h
      cases s
      cases t
      exact congrArg String.mk h
    apply hext
    simp [sectionOf, String.data_append]

/-- Witness for C4 at two concrete input files. -/
theorem merge_text_files_spec_witness :
    merge_text_files ⟨"data/input", "data/output"⟩
        ⟨["data", "data/input", "data/output"],
          [("data/input/a.txt", "A"), ("data/input/b.txt", "B")]⟩
        ["a.txt", "b.txt"] "m.txt" =
      .ok ((⟨["data", "data/input", "data/output"],
          [("data/input/a.txt", "A"), ("data/input/b.txt", "B")]⟩ : FS).putFile
        (ospJoin "data/output" "m.txt")
        (String.intercalate "\n" (List.zipWith sectionOf ["a.txt", "b.txt"] ["A", "B"]))) ∧
    ((⟨["data", "data/input", "data/output"],
          [("data/input/a.txt", "A"), ("data/input/b.txt", "B")]⟩ : FS).putFile
        (ospJoin "data/output" "m.txt")
        (String.intercalate "\n"
          (List.zipWith sectionOf ["a.txt", "b.txt"] ["A", "B"]))).lookupFile
      (ospJoin "data/output" "m.txt") =
      some (String.intercalate "\n" (List.zipWith sectionOf ["a.txt", "b.txt"] ["A", "B"])) ∧
    (∀ n1 n2 c1 c2 : String,
      String.intercalate "\n" (List.zipWith sectionOf [n1, n2] [c1, c2]) =
        "--- " ++ n1 ++ " ---\n" ++ c1 ++ "\n" ++ "\n" ++
          "--- " ++ n2 ++ " ---\n" ++ c2 ++ "\n") :=
  merge_text_files_spec ⟨"data/input", "data/output"⟩
    ⟨["data", "data/input", "data/output"],
      [("data/input/a.txt", "A"), ("data/input/b.txt", "B")]⟩
    ["a.txt", "b.txt"] "m.txt" ["A", "B"] rfl (by decide)

/-- Counterexample to C4 as stated: the merged file goes to the output
directory, so a subsequent `read_text_file` of the output name, which reads
the input directory, fails with the not-found error instead of returning the
merged content. -/
theorem merge_readback_counterexample :
    merge_text_files ⟨"data/input", "data/output"⟩
        ⟨["data", "data/input", "data/output"],
          [("data/input/a.txt", "A"), ("data/input/b.txt", "B")]⟩
        ["a.txt", "b.txt"] "m.txt" =
      .ok ⟨["data", "data/input", "data/output"],
        [("data/output/m.txt", "--- a.txt ---\nA\n\n--- b.txt ---\nB\n"),
          ("data/input/a.txt", "A"), ("data/input/b.txt", "B")]⟩ ∧
    read_text_file ⟨"data/input", "data/output"⟩
      ⟨["data", "data/input", "data/output"],
        [("data/output/m.txt", "--- a.txt ---\nA\n\n--- b.txt ---\nB\n"),
          ("data/input/a.txt", "A"), ("data/input/b.txt", "B")]⟩ "m.txt" =
      .error .notFound ∧
    (Except.error PyErr.notFound : Except PyErr String) ≠
      .ok "--- a.txt ---\nA\n\n--- b.txt ---\nB\n" :=
  ⟨rfl, rfl, by decide⟩
